import Mathlib

/-!
Verification of the todo-cli core: a shallow embedding of the todo
ordering/filtering engine, the mutating commands, and the storage layer,
with theorems settling the specification claims.

Modelling conventions:
* `chrono::DateTime<Local>` timestamps (`created_at`) are modelled as `Int`
  (totally ordered instants).
* `chrono::NaiveDate` values (`due_date`, `today`) are modelled as `Int`
  day numbers; `(date - today).num_days()` becomes integer subtraction.
* Rust `Ordering` maps to Lean `Ordering`; `.reverse()` is `Ordering.swap`
  and `.then_with` is `Ordering.then`.
* Commands (`src/commands/*.rs`) load the collection, possibly mutate it,
  and possibly save.  They are modelled as pure functions from the loaded
  collection to a record carrying the Rust `Result`, the persisted
  collection after the command, and whether `save_todos` was invoked.
-/

namespace TodoCli

/-- Priority levels, in the declaration order of `src/models.rs`
(`Low`, `Normal`, `High`, `Urgent`); the derived Rust `Ord` compares by
declaration order. -/
inductive Priority where
  | low
  | normal
  | high
  | urgent
deriving DecidableEq, Repr

/-- Numeric rank of a priority, matching Rust's derived discriminant order. -/
def Priority.toNat : Priority → Nat
  | .low => 0
  | .normal => 1
  | .high => 2
  | .urgent => 3

/-- Rust `Ord::cmp` on machine integers (here `Nat`). -/
def cmpNat (a b : Nat) : Ordering :=
  if a < b then .lt else if a = b then .eq else .gt

/-- Rust `Ord::cmp` on timestamps and day numbers (here `Int`). -/
def cmpInt (a b : Int) : Ordering :=
  if a < b then .lt else if a = b then .eq else .gt

/-- Derived `Ord` on `Priority` (declaration order). -/
def Priority.cmp (a b : Priority) : Ordering :=
  cmpNat a.toNat b.toNat

/-- Rust `>=` on `Priority` under the derived `Ord`. -/
def Priority.ge (a b : Priority) : Bool :=
  decide (b.toNat ≤ a.toNat)

/-- A todo item (`src/models.rs`, `struct Todo`). -/
structure Todo where
  id : Nat
  title : String
  completed : Bool
  created_at : Int
  due_date : Option Int
  priority : Priority
deriving DecidableEq, Repr

/-- The smart comparator: `impl Ord for Todo` in `src/models.rs` lines
94-120.  Completion status first (incomplete first), then priority
reversed (highest first), then due date (earliest first, `None` last);
the creation-time comparison appears inside the `(None, None)` arm of the
due-date match. -/
def Todo.cmp (a b : Todo) : Ordering :=
  match a.completed, b.completed with
  | true, false => .gt
  | false, true => .lt
  | _, _ =>
    match (Priority.cmp a.priority b.priority).swap with
    | .eq =>
      match a.due_date, b.due_date with
      | some x, some y => cmpInt x y
      | some _, none => .lt
      | none, some _ => .gt
      | none, none => cmpInt a.created_at b.created_at
    | o => o

/-- The `SortOrder::Due` comparator of `src/commands/list.rs` lines 27-36:
ascending due date, `None` last, and for two `None` due dates it calls
`a.cmp(b)`, the full smart comparator. -/
def dueCompare (a b : Todo) : Ordering :=
  match a.due_date, b.due_date with
  | some x, some y => cmpInt x y
  | some _, none => .lt
  | none, some _ => .gt
  | none, none => Todo.cmp a b

/-- The `SortOrder::Priority` comparator of `src/commands/list.rs` lines
37-42: `b.priority.cmp(&a.priority).then_with(|| a.cmp(b))`. -/
def priorityCompare (a b : Todo) : Ordering :=
  (Priority.cmp b.priority a.priority).then (Todo.cmp a b)

/-- The filter stage of `list_todos` (`src/commands/list.rs` lines 12-19):
`retain(|t| !t.completed)` when `active_only`, then
`retain(|t| t.priority >= min_prio)` when a minimum priority is given. -/
def applyFilters (active_only : Bool) (min_priority : Option Priority)
    (todos : List Todo) : List Todo :=
  let afterActive := if active_only then todos.filter (fun t => !t.completed) else todos
  match min_priority with
  | some min_prio => afterActive.filter (fun t => t.priority.ge min_prio)
  | none => afterActive

/-- Errors surfaced by the mutating commands (`anyhow` "not found" errors). -/
inductive CmdError where
  | notFound (id : Nat)
deriving DecidableEq, Repr

instance : DecidableEq (Except CmdError Unit)
  | .ok (), .ok () => isTrue rfl
  | .ok (), .error _ => isFalse (fun h => Except.noConfusion h)
  | .error _, .ok () => isFalse (fun h => Except.noConfusion h)
  | .error e1, .error e2 =>
    if h : e1 = e2 then isTrue (h ▸ rfl)
    else isFalse (fun hh => h (by cases hh; rfl))

/-- Outcome of a mutating command: the returned `Result`, the persisted
collection after the command, and whether `save_todos` was invoked. -/
structure CmdResult where
  result : Except CmdError Unit
  persisted : List Todo
  saved : Bool
deriving DecidableEq, Repr

/-- First pass of `mark_done` (`src/commands/done.rs`): set `completed` on
the first todo with the given id. -/
def markFirstDone (i : Nat) : List Todo → List Todo
  | [] => []
  | t :: ts =>
    if t.id = i then ⟨t.id, t.title, true, t.created_at, t.due_date, t.priority⟩ :: ts
    else t :: markFirstDone i ts

/-- `mark_done` (`src/commands/done.rs` lines 8-40): the loop visits the
first todo with the given id; if it is already completed the function
returns `Ok(())` without saving, otherwise it flips `completed` and saves;
if no todo matches it returns a not-found error without saving. -/
def mark_done (i : Nat) (todos : List Todo) : CmdResult :=
  match todos.find? (fun t => t.id == i) with
  | some t =>
    if t.completed then ⟨.ok (), todos, false⟩
    else ⟨.ok (), markFirstDone i todos, true⟩
  | none => ⟨.error (.notFound i), todos, false⟩

/-- Replace the priority of the first todo with the given id
(`src/commands/priority.rs`, the `iter_mut().find` arm). -/
def setFirstPriority (i : Nat) (p : Priority) : List Todo → List Todo
  | [] => []
  | t :: ts =>
    if t.id = i then ⟨t.id, t.title, t.completed, t.created_at, t.due_date, p⟩ :: ts
    else t :: setFirstPriority i p ts

/-- `set_priority` (`src/commands/priority.rs` lines 9-29): if the first
todo with the given id already has the requested priority the function
reports informationally and does not save; otherwise it replaces the
priority and saves; if no todo matches it returns a not-found error. -/
def set_priority (i : Nat) (p : Priority) (todos : List Todo) : CmdResult :=
  match todos.find? (fun t => t.id == i) with
  | some t =>
    if t.priority = p then ⟨.ok (), todos, false⟩
    else ⟨.ok (), setFirstPriority i p todos, true⟩
  | none => ⟨.error (.notFound i), todos, false⟩

/-- `remove_todo` (`src/commands/remove.rs` lines 8-24):
`retain(|t| t.id != id)`, then save exactly when the length shrank,
otherwise return a not-found error. -/
def remove_todo (i : Nat) (todos : List Todo) : CmdResult :=
  let rest := todos.filter (fun t => t.id != i)
  if rest.length < todos.length then ⟨.ok (), rest, true⟩
  else ⟨.error (.notFound i), todos, false⟩

/-- Outcome of `add_todo`: the created todo, the persisted collection, and
whether `save_todos` was invoked. -/
structure AddResult where
  newTodo : Todo
  persisted : List Todo
  saved : Bool
deriving DecidableEq, Repr

/-- `add_todo` (`src/commands/add.rs` lines 10-45):
`new_id = todos.iter().map(|t| t.id).max().unwrap_or(0) + 1`, then
`Todo::new` (completed `false`, `created_at` set to now), push, save. -/
def add_todo (title : String) (due_date : Option Int) (priority : Priority)
    (now : Int) (todos : List Todo) : AddResult :=
  let new_id := ((todos.map Todo.id).max?.getD 0) + 1
  let todo : Todo := ⟨new_id, title, false, now, due_date, priority⟩
  ⟨todo, todos ++ [todo], true⟩

/-- A persisted JSON record: `id`, `title`, `completed` always present,
the remaining fields possibly absent.  Current-schema records carry
`created_at`; legacy records (`LegacyTodo` in `src/storage.rs`) carry only
the first three fields. -/
structure RawRecord where
  id : Nat
  title : String
  completed : Bool
  created_at : Option Int
  due_date : Option Int
  priority : Option Priority
deriving DecidableEq, Repr

/-- Deserialization of one record at the current schema (`Vec<Todo>` parse
in `src/storage.rs`): `created_at` is required, `due_date` is optional,
and `priority` defaults to `Normal` via `#[serde(default)]`
(`src/models.rs` lines 61-62). -/
def parseCurrent (r : RawRecord) : Option Todo :=
  match r.created_at with
  | some c => some ⟨r.id, r.title, r.completed, c, r.due_date, r.priority.getD Priority.normal⟩
  | none => none

/-- All-or-nothing parse of the whole store at the current schema. -/
def parseCurrentAll : List RawRecord → Option (List Todo)
  | [] => some []
  | r :: rs =>
    match parseCurrent r, parseCurrentAll rs with
    | some t, some ts => some (t :: ts)
    | _, _ => none

/-- Migration of one legacy record (`src/storage.rs` lines 35-45):
keep `id`, `title`, `completed`; `created_at` becomes the load instant,
`due_date` becomes absent, `priority` becomes `Normal`. -/
def migrateLegacy (now : Int) (r : RawRecord) : Todo :=
  ⟨r.id, r.title, r.completed, now, none, Priority.normal⟩

/-- Serialization of a todo back to a stored record (`save_todos`):
every field is written out. -/
def Todo.toRaw (t : Todo) : RawRecord :=
  ⟨t.id, t.title, t.completed, some t.created_at, t.due_date, some t.priority⟩

/-- Outcome of `load_todos`: the returned todos, the persisted store after
the call, and whether a write-back happened. -/
structure LoadResult where
  todos : List Todo
  store : List RawRecord
  saved : Bool
deriving DecidableEq, Repr

/-- `load_todos` (`src/storage.rs` lines 10-51): try the current schema
first and return without writing; on failure migrate every record as
legacy and save the migrated collection back. -/
def load_todos (now : Int) (store : List RawRecord) : LoadResult :=
  match parseCurrentAll store with
  | some todos => ⟨todos, store, false⟩
  | none =>
    let migrated := store.map (migrateLegacy now)
    ⟨migrated, migrated.map Todo.toRaw, true⟩

/-- Display buckets for the due-date classification (spec §4.4).  `noDue`
is the bucket for an absent due date and `doneMark` is the spec's "done"
marker, which the source never produces from `format_due_date`. -/
inductive DueBucket where
  | noDue
  | today
  | tomorrow
  | soon (n : Int)
  | later
  | overdue (n : Int)
  | doneMark
deriving DecidableEq, Repr

/-- The `match days_until` block of `format_due_date` (`src/display.rs`
lines 32-38): `0`, `1`, `2..=6`, `_ if days_until > 6`, and the final
(negative) arm. -/
def classifyDays (days_until : Int) : DueBucket :=
  if days_until = 0 then .today
  else if days_until = 1 then .tomorrow
  else if 2 ≤ days_until ∧ days_until ≤ 6 then .soon days_until
  else if 6 < days_until then .later
  else .overdue (-days_until)

/-- `format_due_date` (`src/display.rs` lines 26-42) as a classification:
a function of the due date and of today only; `completed` is not an
input. -/
def classify_due (due_date : Option Int) (today : Int) : DueBucket :=
  match due_date with
  | some date => classifyDays (date - today)
  | none => .noDue

/-- The classification as claim C2 states it, written from the spec's
words (§4.4 table): a function of `(due_date, completed, today)` whose
first row maps an absent due date to "none" and whose second row maps a
completed todo to "done" independent of the date.  Stated only to be
compared with `classify_due`, the embedding of the source. -/
def classify_due_claim (due_date : Option Int) (completed : Bool) (today : Int) : DueBucket :=
  match due_date with
  | none => .noDue
  | some date =>
    if completed then .doneMark
    else
      let days_until := date - today
      if days_until = 0 then .today
      else if days_until = 1 then .tomorrow
      else if 2 ≤ days_until ∧ days_until ≤ 6 then .soon days_until
      else if 6 < days_until then .later
      else .overdue (-days_until)

/-! ### Helper lemmas -/

theorem cmpInt_self (a : Int) : cmpInt a a = .eq := by
  simp [cmpInt]

theorem cmpInt_lt_of_lt {a b : Int} (h : a < b) : cmpInt a b = .lt := by
  simp [cmpInt, h]

theorem cmpNat_lt_of_lt {a b : Nat} (h : a < b) : cmpNat a b = .lt := by
  simp [cmpNat, h]

theorem Priority.cmp_self (p : Priority) : Priority.cmp p p = .eq := by
  cases p <;> rfl

/-- When both todos share completion status and priority and neither has a
due date, the smart comparator reduces to the creation-time comparison. -/
theorem Todo.cmp_none_none (a b : Todo) (hc : a.completed = b.completed)
    (hp : a.priority = b.priority) (ha : a.due_date = none) (hb : b.due_date = none) :
    Todo.cmp a b = cmpInt a.created_at b.created_at := by
  obtain ⟨ia, ta, ca, ra, da, pa⟩ := a
  obtain ⟨ib, tb, cb, rb, db, pb⟩ := b
  simp only at hc hp ha hb
  subst hc hp ha hb
  cases ca <;> simp [Todo.cmp, Priority.cmp_self, Ordering.swap]

/-- When both todos share completion status and priority and have the same
present due date, the smart comparator returns `eq` whatever the creation
times are. -/
theorem Todo.cmp_same_some (a b : Todo) (hc : a.completed = b.completed)
    (hp : a.priority = b.priority) (d : Int)
    (ha : a.due_date = some d) (hb : b.due_date = some d) :
    Todo.cmp a b = .eq := by
  obtain ⟨ia, ta, ca, ra, da, pa⟩ := a
  obtain ⟨ib, tb, cb, rb, db, pb⟩ := b
  simp only at hc hp ha hb
  subst hc hp ha hb
  cases ca <;> simp [Todo.cmp, Priority.cmp_self, Ordering.swap, cmpInt_self]

/-! ### Claim C1: creation time as the smart comparator's final tie-break -/

/-- Claim C1 as stated is refuted here: two incomplete todos with equal
priority and the same present due date (`some 5`) compare as `eq` under
the smart order even though the first was created strictly earlier, so the
earlier-created one does not compare as less. -/
theorem smart_cmp_equal_present_due_counterexample :
    (⟨1, "a", false, 0, some 5, .normal⟩ : Todo).created_at
      < (⟨2, "b", false, 1, some 5, .normal⟩ : Todo).created_at
    ∧ Todo.cmp ⟨1, "a", false, 0, some 5, .normal⟩ ⟨2, "b", false, 1, some 5, .normal⟩ = .eq
    ∧ Ordering.eq ≠ Ordering.lt := by
  refine ⟨by decide, by decide, by decide⟩

/-- Claim C1, amended: for todos with equal completion status and equal
priority, creation time is the final tie-break only when both due dates
are absent (earlier `created_at` then compares as less); when both due
dates are present and equal the pair compares as equal regardless of
creation times. -/
theorem smart_cmp_creation_tiebreak_amended (a b : Todo)
    (hc : a.completed = b.completed) (hp : a.priority = b.priority) :
    (a.due_date = none → b.due_date = none → a.created_at < b.created_at →
      Todo.cmp a b = .lt)
    ∧ (∀ d : Int, a.due_date = some d → b.due_date = some d → Todo.cmp a b = .eq) := by
  constructor
  · intro ha hb hlt
    rw [Todo.cmp_none_none a b hc hp ha hb]
    exact cmpInt_lt_of_lt hlt
  · intro d ha hb
    exact Todo.cmp_same_some a b hc hp d ha hb

theorem smart_cmp_creation_tiebreak_amended_witness :
    Todo.cmp ⟨1, "a", false, 0, none, .normal⟩ ⟨2, "b", false, 1, none, .normal⟩ = .lt
    ∧ Todo.cmp ⟨1, "a", false, 0, some 5, .normal⟩ ⟨2, "b", false, 1, some 5, .normal⟩ = .eq :=
  ⟨(smart_cmp_creation_tiebreak_amended ⟨1, "a", false, 0, none, .normal⟩
      ⟨2, "b", false, 1, none, .normal⟩ rfl rfl).1 rfl rfl (by decide),
   (smart_cmp_creation_tiebreak_amended ⟨1, "a", false, 0, some 5, .normal⟩
      ⟨2, "b", false, 1, some 5, .normal⟩ rfl rfl).2 5 rfl rfl⟩

/-! ### Claim C2: the due-date classification -/

/-- Claim C2 as stated is refuted here: the claim maps `completed = true`
to the "done" bucket independent of the date, but the source
classification (`format_due_date`) does not take `completed` as an input
at all and classifies a completed todo due today as "today". -/
theorem classify_due_completed_counterexample :
    classify_due_claim (some 0) true 0 = .doneMark
    ∧ classify_due (some 0) 0 = .today
    ∧ DueBucket.today ≠ DueBucket.doneMark := by
  refine ⟨by decide, by decide, by decide⟩

/-- Claim C2, amended: the due-date classification is a pure function of
`(due_date, today)` only — `completed` is not an input and no "done"
bucket exists; on incomplete todos it agrees with the spec's table, and
the date rows hold as claimed: absent maps to "none", `days_until = 0` to
"today", `1` to "tomorrow", `2..6` to "soon" (in Nd), `> 6` to "later",
and `< 0` to "overdue" with `N = -days_until`. -/
theorem classify_due_buckets_amended (date today : Int) :
    classify_due none today = .noDue
    ∧ classify_due_claim (some date) false today = classify_due (some date) today
    ∧ (date - today = 0 → classify_due (some date) today = .today)
    ∧ (date - today = 1 → classify_due (some date) today = .tomorrow)
    ∧ (2 ≤ date - today → date - today ≤ 6 →
        classify_due (some date) today = .soon (date - today))
    ∧ (6 < date - today → classify_due (some date) today = .later)
    ∧ (date - today < 0 → classify_due (some date) today = .overdue (-(date - today))) := by
  refine ⟨rfl, rfl, ?_, ?_, ?_, ?_, ?_⟩
  · intro h
    simp [classify_due, classifyDays, h]
  · intro h
    simp [classify_due, classifyDays, h]
  · intro h1 h2
    simp only [classify_due, classifyDays]
    rw [if_neg (by omega), if_neg (by omega), if_pos ⟨h1, h2⟩]
  · intro h
    simp only [classify_due, classifyDays]
    rw [if_neg (by omega), if_neg (by omega), if_neg (by omega), if_pos h]
  · intro h
    simp only [classify_due, classifyDays]
    rw [if_neg (by omega), if_neg (by omega), if_neg (by omega), if_neg (by omega)]

/-- Boundary instances of the amended C2 classification, matching the
spec's test 8 with `today = 0`: due `0` is "today", `1` is "tomorrow",
`6` is "in 6d" (the soon boundary), `7` is "later", `-1` is "1d
overdue". -/
theorem classify_due_buckets_amended_witness :
    classify_due (some 0) 0 = .today
    ∧ classify_due (some 1) 0 = .tomorrow
    ∧ classify_due (some 6) 0 = .soon 6
    ∧ classify_due (some 7) 0 = .later
    ∧ classify_due (some (-1)) 0 = .overdue 1 :=
  ⟨(classify_due_buckets_amended 0 0).2.2.1 (by decide),
   (classify_due_buckets_amended 1 0).2.2.2.1 (by decide),
   (classify_due_buckets_amended 6 0).2.2.2.2.1 (by decide) (by decide),
   (classify_due_buckets_amended 7 0).2.2.2.2.2.1 (by decide),
   (classify_due_buckets_amended (-1) 0).2.2.2.2.2.2 (by decide)⟩

/-! ### Claim C5: the by-due-date sort's tie-break for absent due dates -/

/-- Claim C5 as stated is refuted here: under the by-due-date comparator,
a completed todo created earlier does not sort before an incomplete todo
created later when both lack due dates — the comparator falls back to the
full smart order, which puts the incomplete todo first. -/
theorem due_sort_no_due_tiebreak_counterexample :
    (⟨1, "a", true, 0, none, .normal⟩ : Todo).created_at
      < (⟨2, "b", false, 1, none, .normal⟩ : Todo).created_at
    ∧ dueCompare ⟨1, "a", true, 0, none, .normal⟩ ⟨2, "b", false, 1, none, .normal⟩ = .gt
    ∧ Ordering.gt ≠ Ordering.lt := by
  refine ⟨by decide, by decide, by decide⟩

/-- Claim C5, amended: in the by-due-date sort mode, for a pair of todos
that both lack a due date the tie is broken by the full smart comparator
(completion status, then priority, then creation time); ascending creation
time therefore decides the tie exactly when the two todos also share
completion status and priority. -/
theorem due_sort_no_due_falls_back_to_smart (a b : Todo)
    (ha : a.due_date = none) (hb : b.due_date = none) :
    dueCompare a b = Todo.cmp a b
    ∧ (a.completed = b.completed → a.priority = b.priority →
        a.created_at < b.created_at → dueCompare a b = .lt) := by
  have hfall : dueCompare a b = Todo.cmp a b := by
    simp [dueCompare, ha, hb]
  refine ⟨hfall, ?_⟩
  intro hc hp hlt
  rw [hfall, Todo.cmp_none_none a b hc hp ha hb]
  exact cmpInt_lt_of_lt hlt

theorem due_sort_no_due_falls_back_to_smart_witness :
    dueCompare ⟨1, "a", false, 0, none, .normal⟩ ⟨2, "b", false, 1, none, .normal⟩ = .lt :=
  (due_sort_no_due_falls_back_to_smart ⟨1, "a", false, 0, none, .normal⟩
    ⟨2, "b", false, 1, none, .normal⟩ rfl rfl).2 rfl rfl (by decide)

/-! ### Claim C6: the by-priority sort's tie-break -/

/-- Claim C6 as stated is refuted here: under the by-priority comparator,
a completed todo created earlier does not sort before an incomplete todo
created later of the same priority — the equal-priority tie falls back to
the full smart order, which puts the incomplete todo first. -/
theorem priority_sort_tiebreak_counterexample :
    (⟨2, "b", true, 0, none, .normal⟩ : Todo).created_at
      < (⟨1, "a", false, 1, none, .normal⟩ : Todo).created_at
    ∧ priorityCompare ⟨2, "b", true, 0, none, .normal⟩ ⟨1, "a", false, 1, none, .normal⟩ = .gt
    ∧ Ordering.gt ≠ Ordering.lt := by
  refine ⟨by decide, by decide, by decide⟩

/-- Claim C6, amended: the by-priority sort orders by descending priority,
and an equal-priority tie is broken by the full smart comparator
(completion status, then due date, then creation time); ascending creation
time decides the tie exactly when the pair also share completion status
and both lack due dates. -/
theorem priority_sort_desc_then_smart (a b : Todo) :
    (b.priority.toNat < a.priority.toNat → priorityCompare a b = .lt)
    ∧ (a.priority = b.priority → priorityCompare a b = Todo.cmp a b)
    ∧ (a.priority = b.priority → a.completed = b.completed →
        a.due_date = none → b.due_date = none →
        a.created_at < b.created_at → priorityCompare a b = .lt) := by
  have hdesc : b.priority.toNat < a.priority.toNat → priorityCompare a b = .lt := by
    intro h
    simp [priorityCompare, Priority.cmp, cmpNat_lt_of_lt h, Ordering.then]
  have heq : a.priority = b.priority → priorityCompare a b = Todo.cmp a b := by
    intro h
    simp [priorityCompare, h, Priority.cmp_self, Ordering.then]
  refine ⟨hdesc, heq, ?_⟩
  intro hp hc ha hb hlt
  rw [heq hp, Todo.cmp_none_none a b hc hp ha hb]
  exact cmpInt_lt_of_lt hlt

theorem priority_sort_desc_then_smart_witness :
    priorityCompare ⟨1, "a", false, 0, none, .urgent⟩ ⟨2, "b", false, 1, none, .normal⟩ = .lt
    ∧ priorityCompare ⟨1, "a", false, 0, none, .normal⟩ ⟨2, "b", false, 1, none, .normal⟩ = .lt :=
  ⟨(priority_sort_desc_then_smart ⟨1, "a", false, 0, none, .urgent⟩
      ⟨2, "b", false, 1, none, .normal⟩).1 (by decide),
   (priority_sort_desc_then_smart ⟨1, "a", false, 0, none, .normal⟩
      ⟨2, "b", false, 1, none, .normal⟩).2.2 rfl rfl rfl rfl (by decide)⟩

/-! ### Claim C3: not-found behaviour of the mutating commands -/

/-- Claim C3: when no todo carries the requested id, `mark_done`,
`set_priority` and `remove_todo` all return a recoverable not-found error,
perform no save, and leave the persisted collection unchanged. -/
theorem mutations_notfound_unchanged (todos : List Todo) (i : Nat) (p : Priority)
    (h : ∀ t ∈ todos, t.id ≠ i) :
    mark_done i todos = ⟨.error (.notFound i), todos, false⟩
    ∧ set_priority i p todos = ⟨.error (.notFound i), todos, false⟩
    ∧ remove_todo i todos = ⟨.error (.notFound i), todos, false⟩ := by
  have hfind : todos.find? (fun t => t.id == i) = none := by
    rw [List.find?_eq_none]
    intro t ht
    simpa using h t ht
  have hfilter : todos.filter (fun t => t.id != i) = todos := by
    rw [List.filter_eq_self]
    intro t ht
    simpa using h t ht
  refine ⟨?_, ?_, ?_⟩
  · simp [mark_done, hfind]
  · simp [set_priority, hfind]
  · simp [remove_todo, hfilter]

theorem mutations_notfound_unchanged_witness :
    mark_done 2 [⟨1, "a", false, 0, none, .normal⟩]
      = ⟨.error (.notFound 2), [⟨1, "a", false, 0, none, .normal⟩], false⟩
    ∧ set_priority 2 .high [⟨1, "a", false, 0, none, .normal⟩]
      = ⟨.error (.notFound 2), [⟨1, "a", false, 0, none, .normal⟩], false⟩
    ∧ remove_todo 2 [⟨1, "a", false, 0, none, .normal⟩]
      = ⟨.error (.notFound 2), [⟨1, "a", false, 0, none, .normal⟩], false⟩ :=
  mutations_notfound_unchanged [⟨1, "a", false, 0, none, .normal⟩] 2 .high (by decide)

/-! ### Claim C4: id assignment by add -/

/-- Every member of a list of naturals is bounded by the initial value's
fold of `max` over it. -/
theorem le_foldl_max_init (l : List Nat) (a : Nat) : a ≤ l.foldl max a := by
  induction l generalizing a with
  | nil => simp
  | cons b l ih =>
    simpa [List.foldl_cons] using le_trans (le_max_left a b) (ih (max a b))

theorem mem_le_foldl_max (l : List Nat) (a x : Nat) (hx : x ∈ l) : x ≤ l.foldl max a := by
  induction l generalizing a with
  | nil => cases hx
  | cons b l ih =>
    rcases List.mem_cons.mp hx with h | h
    · subst h
      simpa [List.foldl_cons] using le_trans (le_max_right a x) (le_foldl_max_init l (max a x))
    · simpa [List.foldl_cons] using ih (max a b) h

theorem mem_le_max_getD (l : List Nat) (x : Nat) (hx : x ∈ l) : x ≤ l.max?.getD 0 := by
  cases l with
  | nil => cases hx
  | cons a l =>
    rcases List.mem_cons.mp hx with h | h
    · subst h
      simpa [List.max?] using le_foldl_max_init l x
    · simpa [List.max?] using mem_le_foldl_max l a x h

/-- Claim C4: `add_todo` assigns the new id as `(max existing id) + 1`
(`max`, not count, so gaps are not reused and every existing id is
strictly below the new one), assigns `1` on an empty collection, and
appends the new todo; in particular adding to ids `{1, 3}` assigns `4`. -/
theorem add_assigns_max_plus_one (title : String) (due : Option Int)
    (p : Priority) (now : Int) (todos : List Todo) :
    (add_todo title due p now todos).newTodo.id = ((todos.map Todo.id).max?.getD 0) + 1
    ∧ (∀ t ∈ todos, t.id < (add_todo title due p now todos).newTodo.id)
    ∧ (todos = [] → (add_todo title due p now todos).newTodo.id = 1)
    ∧ (add_todo title due p now todos).persisted
        = todos ++ [(add_todo title due p now todos).newTodo]
    ∧ (add_todo "x" none .normal 0
        [⟨1, "a", false, 0, none, .normal⟩, ⟨3, "b", false, 0, none, .normal⟩]).newTodo.id = 4 := by
  refine ⟨rfl, ?_, ?_, rfl, by decide⟩
  · intro t ht
    have : t.id ≤ (todos.map Todo.id).max?.getD 0 :=
      mem_le_max_getD (todos.map Todo.id) t.id (List.mem_map_of_mem Todo.id ht)
    simpa [add_todo] using Nat.lt_succ_of_le this
  · intro h
    subst h
    rfl

theorem add_assigns_max_plus_one_witness :
    (⟨1, "a", false, 0, none, .normal⟩ : Todo).id
      < (add_todo "x" none .normal 0
          [⟨1, "a", false, 0, none, .normal⟩, ⟨3, "b", false, 0, none, .normal⟩]).newTodo.id
    ∧ (add_todo "y" none .normal 0 ([] : List Todo)).newTodo.id = 1 :=
  ⟨(add_assigns_max_plus_one "x" none .normal 0
      [⟨1, "a", false, 0, none, .normal⟩, ⟨3, "b", false, 0, none, .normal⟩]).2.1
      ⟨1, "a", false, 0, none, .normal⟩ (by decide),
   (add_assigns_max_plus_one "y" none .normal 0 []).2.2.1 rfl⟩

/-! ### Claim C7: filter composition and order preservation -/

/-- Claim C7: applying the active-only and minimum-priority filters
together equals applying either one and then the other, membership in the
combined result is exactly membership in both independent results
(intersection), the result is a sublist of the input (no reordering, only
removal), and the empty input yields the empty output. -/
theorem filters_intersect_preserve_order (p : Priority) (todos : List Todo) :
    applyFilters true (some p) todos
      = (applyFilters true none todos).filter (fun t => t.priority.ge p)
    ∧ applyFilters true (some p) todos
      = (applyFilters false (some p) todos).filter (fun t => !t.completed)
    ∧ (∀ t, t ∈ applyFilters true (some p) todos
        ↔ t ∈ applyFilters true none todos ∧ t ∈ applyFilters false (some p) todos)
    ∧ (applyFilters true (some p) todos).Sublist todos
    ∧ applyFilters true (some p) ([] : List Todo) = [] := by
  have h1 : applyFilters true none todos = todos.filter (fun t => !t.completed) := by
    simp [applyFilters]
  have h2 : applyFilters false (some p) todos = todos.filter (fun t => t.priority.ge p) := by
    simp [applyFilters]
  have h3 : applyFilters true (some p) todos
      = (todos.filter (fun t => !t.completed)).filter (fun t => t.priority.ge p) := by
    simp [applyFilters]
  refine ⟨rfl, ?_, ?_, ?_, rfl⟩
  · rw [h3, h2, List.filter_filter, List.filter_filter]
    exact List.filter_congr (fun t _ => Bool.and_comm _ _)
  · intro t
    rw [h3, h1, h2]
    simp only [List.mem_filter]
    tauto
  · rw [h3]
    exact ((todos.filter (fun t => !t.completed)).filter_sublist).trans
      todos.filter_sublist

/-! ### Claim C8: legacy-schema migration on load -/

/-- Reloading what `save_todos` wrote parses at the current schema. -/
theorem parseCurrentAll_toRaw (ts : List Todo) :
    parseCurrentAll (ts.map Todo.toRaw) = some ts := by
  induction ts with
  | nil => rfl
  | cons t ts ih => simp [parseCurrentAll, parseCurrent, Todo.toRaw, ih]

/-- A store that parses at the current schema is returned as-is, without a
write-back. -/
theorem load_todos_of_parse (now : Int) (store : List RawRecord) (ts : List Todo)
    (h : parseCurrentAll store = some ts) :
    load_todos now store = ⟨ts, store, false⟩ := by
  simp [load_todos, h]

/-- Claim C8: on a non-empty store written entirely by the legacy schema
(records carrying only `id`, `title`, `completed`), `load_todos` upgrades
every record — keeping `id`, `title`, `completed` and filling
`due_date = none`, `priority = Normal` — persists the upgraded records
back, and a second load of the migrated store returns identical todos
without writing again (the migration is one-time and idempotent). -/
theorem load_migrates_legacy_idempotent (store : List RawRecord) (now now2 : Int)
    (hne : store ≠ [])
    (hleg : ∀ r ∈ store, r.created_at = none ∧ r.due_date = none ∧ r.priority = none) :
    (load_todos now store).todos
      = store.map (fun r => ⟨r.id, r.title, r.completed, now, none, Priority.normal⟩)
    ∧ (load_todos now store).saved = true
    ∧ (load_todos now store).store = (load_todos now store).todos.map Todo.toRaw
    ∧ load_todos now2 (load_todos now store).store
      = ⟨(load_todos now store).todos, (load_todos now store).store, false⟩ := by
  obtain ⟨r, rs, rfl⟩ : ∃ r rs, store = r :: rs := by
    cases store with
    | nil => exact absurd rfl hne
    | cons r rs => exact ⟨r, rs, rfl⟩
  have hfail : parseCurrentAll (r :: rs) = none := by
    have hr : r.created_at = none := (hleg r (List.mem_cons_self r rs)).1
    simp [parseCurrentAll, parseCurrent, hr]
  have hload : load_todos now (r :: rs)
      = ⟨(r :: rs).map (migrateLegacy now),
         ((r :: rs).map (migrateLegacy now)).map Todo.toRaw, true⟩ := by
    simp [load_todos, hfail]
  refine ⟨?_, ?_, ?_, ?_⟩
  · rw [hload]
    rfl
  · rw [hload]
  · rw [hload]
  · rw [hload]
    exact load_todos_of_parse now2 _ _ (parseCurrentAll_toRaw _)

theorem load_migrates_legacy_idempotent_witness :
    (load_todos 5 [⟨1, "a", false, none, none, none⟩, ⟨2, "b", true, none, none, none⟩]).todos
      = [⟨1, "a", false, 5, none, .normal⟩, ⟨2, "b", true, 5, none, .normal⟩]
    ∧ (load_todos 5 [⟨1, "a", false, none, none, none⟩, ⟨2, "b", true, none, none, none⟩]).saved
      = true :=
  ⟨(load_migrates_legacy_idempotent
      [⟨1, "a", false, none, none, none⟩, ⟨2, "b", true, none, none, none⟩] 5 9
      (by decide) (by decide)).1,
   (load_migrates_legacy_idempotent
      [⟨1, "a", false, none, none, none⟩, ⟨2, "b", true, none, none, none⟩] 5 9
      (by decide) (by decide)).2.1⟩

/-! ### Claim C9: id reuse after deletion -/

/-- Claim C9 as stated is refuted here: adding to the empty collection
assigns id 1, removing that todo empties the collection, and the next add
assigns id 1 again — the once-deleted id is reassigned. -/
theorem id_reuse_after_remove_counterexample :
    (add_todo "a" none .normal 0 []).newTodo.id = 1
    ∧ (remove_todo 1 (add_todo "a" none .normal 0 []).persisted).persisted = []
    ∧ (add_todo "b" none .normal 7
        (remove_todo 1 (add_todo "a" none .normal 0 []).persisted).persisted).newTodo.id = 1 := by
  refine ⟨by decide, by decide, by decide⟩

/-- Claim C9, amended: `add_todo` assigns an id strictly greater than
every id currently present (so an id is never duplicated within the
collection and is never reassigned while any todo with a
greater-or-equal id remains), but because the rule is `max + 1` over the
current contents, an id that was deleted is reassigned once it exceeds
every remaining id — in particular after deleting the highest-numbered
todo. -/
theorem add_id_above_all_present (title : String) (due : Option Int)
    (p : Priority) (now : Int) (todos : List Todo) (t : Todo) (ht : t ∈ todos) :
    t.id < (add_todo title due p now todos).newTodo.id := by
  have : t.id ≤ (todos.map Todo.id).max?.getD 0 :=
    mem_le_max_getD (todos.map Todo.id) t.id (List.mem_map_of_mem Todo.id ht)
  simpa [add_todo] using Nat.lt_succ_of_le this

theorem add_id_above_all_present_witness :
    (⟨3, "b", false, 0, none, .normal⟩ : Todo).id
      < (add_todo "x" none .normal 0
          [⟨1, "a", false, 0, none, .normal⟩, ⟨3, "b", false, 0, none, .normal⟩]).newTodo.id :=
  add_id_above_all_present "x" none .normal 0
    [⟨1, "a", false, 0, none, .normal⟩, ⟨3, "b", false, 0, none, .normal⟩]
    ⟨3, "b", false, 0, none, .normal⟩ (by decide)

/-! ### Claim C10: no-op mutations do not write -/

/-- Claim C10: when the first todo carrying the requested id is already
completed, `mark_done` succeeds without saving and leaves the persisted
collection unchanged; when it already has the requested priority,
`set_priority` succeeds without saving and leaves the persisted collection
unchanged. -/
theorem noop_mutations_no_save (todos : List Todo) (i : Nat) (p : Priority) (t : Todo)
    (hfind : todos.find? (fun x => x.id == i) = some t) :
    (t.completed = true → mark_done i todos = ⟨.ok (), todos, false⟩)
    ∧ (t.priority = p → set_priority i p todos = ⟨.ok (), todos, false⟩) := by
  constructor
  · intro h
    simp [mark_done, hfind, h]
  · intro h
    simp [set_priority, hfind, h]

theorem noop_mutations_no_save_witness :
    mark_done 1 [⟨1, "a", true, 0, none, .normal⟩]
      = ⟨.ok (), [⟨1, "a", true, 0, none, .normal⟩], false⟩
    ∧ set_priority 1 .normal [⟨1, "a", true, 0, none, .normal⟩]
      = ⟨.ok (), [⟨1, "a", true, 0, none, .normal⟩], false⟩ :=
  ⟨(noop_mutations_no_save [⟨1, "a", true, 0, none, .normal⟩] 1 .normal
      ⟨1, "a", true, 0, none, .normal⟩ (by decide)).1 rfl,
   (noop_mutations_no_save [⟨1, "a", true, 0, none, .normal⟩] 1 .normal
      ⟨1, "a", true, 0, none, .normal⟩ (by decide)).2 rfl⟩

end TodoCli
